import Mathlib

/-!
Verification of the SQL extraction / reconciliation / regeneration engine of the
visual-sql VS Code extension (`src/sqlParser.ts` and `src/sqlViewerProvider.ts`).

Strings are modelled as `List Char` (the JS string operations used by the code —
`trim`, `split`, `slice`, `startsWith`, `replace`, character scanning — are plain
list functions here).  Loosely-typed JavaScript values (the AST returned by
`node-sql-parser`, and the `any` scalars stored in statement models) are modelled
by the `Js` type below.  JS numbers are modelled by `Int`: the SQL literals the
code manipulates are decimal integers, and `Number(...)` / `String(...)` are
modelled on that decimal-integer fragment.  The external AST parser
(`parser.astify`) is an untrusted black box and is a parameter
`astify : Str → Except Str Js` of every function that calls it (`Except.error`
models a thrown parse error carrying its message).
-/

abbrev Str := List Char

/-- The single-quote character `'` (code point 39). -/
def sqc : Char := Char.ofNat 39

/-- The double-quote character `"` (code point 34). -/
def dqc : Char := Char.ofNat 34

/-- Whitespace characters recognised by JS `trim` / `\s` (ASCII fragment). -/
def isWsChar (c : Char) : Bool := c = ' ' || c = '\t' || c = '\n' || c = '\r'

/-- JS `String.prototype.trim`. -/
def trimStr (s : Str) : Str :=
  ((s.dropWhile isWsChar).reverse.dropWhile isWsChar).reverse

/-- ASCII lower-casing of one character, as JS `toLowerCase` does on ASCII. -/
def toLowerChar (c : Char) : Char :=
  if 'A' ≤ c ∧ c ≤ 'Z' then Char.ofNat (c.toNat + 32) else c

/-- ASCII upper-casing of one character, as JS `toUpperCase` does on ASCII. -/
def toUpperChar (c : Char) : Char :=
  if 'a' ≤ c ∧ c ≤ 'z' then Char.ofNat (c.toNat - 32) else c

def lowerStr (s : Str) : Str := s.map toLowerChar

def upperStr (s : Str) : Str := s.map toUpperChar

def digitChars : List Char := ['0', '1', '2', '3', '4', '5', '6', '7', '8', '9']

def isDigitChar (c : Char) : Bool := digitChars.contains c

/-- The decimal digit character for `d` (`d < 10`; total with a junk default). -/
def digitChar : Nat → Char
  | 0 => '0' | 1 => '1' | 2 => '2' | 3 => '3' | 4 => '4'
  | 5 => '5' | 6 => '6' | 7 => '7' | 8 => '8' | _ => '9'

/-- The numeric value of a decimal digit character. -/
def charDigit (c : Char) : Nat := c.toNat - 48

/-- Decimal rendering of a natural number, with explicit fuel (the fuel `n + 1`
used by `renderNat` always suffices). -/
def renderNatAux : Nat → Nat → Str
  | 0, _ => []
  | fuel + 1, n =>
    if n < 10 then [digitChar n]
    else renderNatAux fuel (n / 10) ++ [digitChar (n % 10)]

/-- Decimal rendering of a natural number (JS `String(n)` for `n ≥ 0`). -/
def renderNat (n : Nat) : Str := renderNatAux (n + 1) n

/-- JS `String(n)` on an integer. -/
def renderInt (i : Int) : Str :=
  if i < 0 then '-' :: renderNat i.natAbs else renderNat i.toNat

/-- Value of a big-endian list of decimal digit characters. -/
def parseNatDigits (l : Str) : Nat :=
  l.foldl (fun acc c => acc * 10 + charDigit c) 0

/-- JS `Number(s)` on the decimal-integer fragment: `none` models `NaN`.
Mirrors the facts the code relies on: surrounding whitespace is ignored and
`Number('') = 0` (which is why the code additionally guards with
`value.trim() !== ''`). -/
def jsNumberParse (s : Str) : Option Int :=
  match trimStr s with
  | [] => some 0
  | c :: cs =>
    if c = '-' then
      if cs ≠ [] ∧ cs.all isDigitChar then some (-(parseNatDigits cs : Int)) else none
    else if (c :: cs).all isDigitChar then some ((parseNatDigits (c :: cs) : Int)) else none

/-- The `!isNaN(Number(s))` in the code. -/
def isNumericStr (s : Str) : Bool := (jsNumberParse s).isSome

/-- The `l.startsWith(c)` for a one-character pattern. -/
def startsChar (l : Str) (c : Char) : Bool := l.head? = some c

/-- The `l.endsWith(c)` for a one-character pattern. -/
def endsChar (l : Str) (c : Char) : Bool := l.getLast? = some c

/-- JS `s.slice(1, -1)`. -/
def sliceOuter (s : Str) : Str := (s.drop 1).dropLast

/-- Is `pat` a prefix of `s`? -/
def hasPrefixChars : Str → Str → Bool
  | [], _ => true
  | _ :: _, [] => false
  | p :: ps, c :: cs => p = c && hasPrefixChars ps cs

/-- JS `s.includes(pat)`. -/
def includesStr (s pat : Str) : Bool :=
  match s with
  | [] => hasPrefixChars pat []
  | _ :: rest => hasPrefixChars pat s || includesStr rest pat

/-- JS `s.split(ch)` for a one-character separator. -/
def splitOnChar (ch : Char) : Str → List Str
  | [] => [[]]
  | c :: t =>
    match splitOnChar ch t with
    | [] => [[c]]
    | h :: hs => if c = ch then [] :: h :: hs else (c :: h) :: hs

mutual
/-- Loosely-typed JavaScript values: the shape-varying AST nodes returned by the
external SQL parser, and the `any` scalars stored in statement models.
`undefined` is JS `undefined` (distinct from `null`: the code tests both). -/
inductive Js where
  | null
  | undefined
  | bool (b : Bool)
  | num (n : Int)
  | str (s : Str)
  | arr (elems : JsList)
  | obj (fields : JsFields)
  deriving DecidableEq, Repr
inductive JsList where
  | nil
  | cons (hd : Js) (tl : JsList)
  deriving DecidableEq, Repr
inductive JsFields where
  | nil
  | cons (name : String) (val : Js) (tl : JsFields)
  deriving DecidableEq, Repr
end

def JsList.toList : JsList → List Js
  | .nil => []
  | .cons h t => h :: t.toList

def jsGetFields : JsFields → String → Js
  | .nil, _ => .undefined
  | .cons n value t, name => if n = name then value else jsGetFields t name

/-- Property access `v[name]`: `undefined` on a missing field or a non-object. -/
def jsGet (v : Js) (name : String) : Js :=
  match v with
  | .obj fs => jsGetFields fs name
  | _ => .undefined

/-- JS truthiness. -/
def Js.truthy : Js → Bool
  | .null => false
  | .undefined => false
  | .bool b => b
  | .num n => n ≠ 0
  | .str s => s ≠ []
  | .arr _ => true
  | .obj _ => true

/-- The `Array.isArray`. -/
def Js.isArr : Js → Bool
  | .arr _ => true
  | _ => false

/-- The elements of an array value (`[]` on non-arrays). -/
def Js.arrElems : Js → List Js
  | .arr l => l.toList
  | _ => []

/-- The `v[0]` on an array (`undefined` when out of range or not an array). -/
def jsIndex0 (v : Js) : Js :=
  match v with
  | .arr l => match l.toList.head? with
    | some x => x
    | none => .undefined
  | _ => .undefined

mutual
/-- JS `String(v)` coercion (array rendering joins elements with `,`). -/
def jsToString : Js → Str
  | .null => "null".data
  | .undefined => "undefined".data
  | .bool true => "true".data
  | .bool false => "false".data
  | .num n => renderInt n
  | .str s => s
  | .arr l => jsToStringList l
  | .obj _ => "[object Object]".data
def jsToStringList : JsList → Str
  | .nil => []
  | .cons x .nil => jsToString x
  | .cons x (.cons y tl) => jsToString x ++ ',' :: jsToStringList (.cons y tl)
end

/-- The `x || ''` coerced to a string, as used for table-name extraction. -/
def jsOrEmptyStr (v : Js) : Str := if v.truthy then jsToString v else []

/-! ## The statement model (`ParsedStatement` / `ParsedSQLData` of `sqlParser.ts`) -/

inductive StmtType where
  | select
  | insert
  | update
  | delete
  | unknown
  deriving DecidableEq, Repr

/-- One parsed statement (`ParsedStatement` in `sqlParser.ts`).  Optional fields
are `none` when the extractor never assigns them; `whereClause` models the
`where` field (a raw AST fragment, `undefined` when absent). -/
structure ParsedStatement where
  type : StmtType
  tableName : Option Str := none
  columns : Option (List Str) := none
  values : Option (List (List Js)) := none
  whereClause : Js := .undefined
  data : Option (List (List Js)) := none
  deriving DecidableEq, Repr

/-- The `ParsedSQLData` in `sqlParser.ts`. -/
structure ParsedSQLData where
  success : Bool
  statements : List ParsedStatement
  error : Option Str := none
  raw : Str
  deriving DecidableEq, Repr

/-! ## Scalar normalization (`cleanValue`) and the quote-aware splitter
(`splitValueString`) of `sqlParser.ts` -/

/-- The `cleanValue` of `sqlParser.ts`: strip surrounding quotes, else classify the
text as Boolean / Number / Null, else keep it as a string. -/
def cleanValue (value : Str) : Js :=
  if value = [] then .str []
  else if (startsChar value sqc ∧ endsChar value sqc) ∨
          (startsChar value dqc ∧ endsChar value dqc) then .str (sliceOuter value)
  else if lowerStr value = "true".data then .bool true
  else if lowerStr value = "false".data then .bool false
  else if isNumericStr value ∧ trimStr value ≠ [] then .num ((jsNumberParse value).getD 0)
  else if upperStr value = "NULL".data then .null
  else .str value

/-- The final step of `splitValueString`'s loop: push the last accumulated
value if its trimmed text is non-empty. -/
def finishSplit (currentValue : Str) (values : List Js) : List Js :=
  if trimStr currentValue ≠ [] then values ++ [cleanValue (trimStr currentValue)]
  else values

/-- The state machine of `splitValueString`: first argument is the remaining
input; then the `inString` flag, the active `stringChar`, the accumulated
`currentValue` and the accumulated `values`.  The escaped-quote lookahead makes
the loop inspect two characters at a time, hence the two-cons pattern. -/
def splitValueAux : Str → Bool → Char → Str → List Js → List Js
  | [], _, _, currentValue, values => finishSplit currentValue values
  | [ch], inString, _, currentValue, values =>
    if inString then finishSplit (currentValue ++ [ch]) values
    else if ch = ',' then finishSplit [] (values ++ [cleanValue (trimStr currentValue)])
    else finishSplit (currentValue ++ [ch]) values
  | ch :: ch2 :: rest, inString, stringChar, currentValue, values =>
    if inString then
      if ch = stringChar then
        if ch2 = stringChar then
          splitValueAux rest true stringChar (currentValue ++ [ch, ch2]) values
        else splitValueAux (ch2 :: rest) false stringChar (currentValue ++ [ch]) values
      else splitValueAux (ch2 :: rest) true stringChar (currentValue ++ [ch]) values
    else if ch = sqc ∨ ch = dqc then
      splitValueAux (ch2 :: rest) true ch (currentValue ++ [ch]) values
    else if ch = ',' then
      splitValueAux (ch2 :: rest) false stringChar [] (values ++ [cleanValue (trimStr currentValue)])
    else splitValueAux (ch2 :: rest) false stringChar (currentValue ++ [ch]) values

/-- The `splitValueString` of `sqlParser.ts`: split one row's inner text on commas,
ignoring commas inside string literals and treating a doubled quote character
inside a string as an escaped literal quote. -/
def splitValueString (valueStr : Str) : List Js :=
  splitValueAux valueStr false sqc [] []

/-- The global regex `/\([^)]+\)/g` of `extractValuesFromString`: every
non-overlapping `( … )` group (with non-empty inner text free of `)`),
returned as the inner texts.  Fueled scan; `parenGroups` supplies enough fuel. -/
def parenGroupsAux : Nat → Str → List Str
  | 0, _ => []
  | _ + 1, [] => []
  | fuel + 1, c :: rest =>
    if c = '(' then
      match rest.dropWhile (fun x => x ≠ ')') with
      | ')' :: r2 =>
        let inner := rest.takeWhile (fun x => x ≠ ')')
        if inner = [] then parenGroupsAux fuel rest else inner :: parenGroupsAux fuel r2
      | _ => parenGroupsAux fuel rest
    else parenGroupsAux fuel rest

def parenGroups (s : Str) : List Str := parenGroupsAux s.length s

/-- The `extractValuesFromString` of `sqlParser.ts`: each parenthesised group of the
VALUES tail is one row; the parentheses are stripped (`slice(1, -1)` in the
code, already done by `parenGroups` here) and the inner text is split. -/
def extractValuesFromString (valuesStr : Str) : List (List Js) :=
  (parenGroups valuesStr).map (fun inner => splitValueString inner)

/-! ## The row reconciler (`validateAndFixInsertData`) -/

/-- The `validateAndFixInsertData` of `sqlParser.ts`: force every row's width to the
declared column count — keep, truncate, or right-pad with empty strings. -/
def validateAndFixInsertData (columns : List Str) (values : List (List Js)) :
    List (List Js) :=
  values.map (fun row =>
    if row.length = columns.length then row
    else if row.length > columns.length then row.take columns.length
    else row ++ List.replicate (columns.length - row.length) (Js.str []))

/-! ## The fallback lexical parser (`handleColumnCountMismatchError`) -/

/-- Case-insensitively consume the (lowercase) literal `lit`, returning the rest. -/
def matchCI : Str → Str → Option Str
  | [], s => some s
  | _ :: _, [] => none
  | l :: lt, c :: cs => if toLowerChar c = l then matchCI lt cs else none

/-- Consume `\s+` (at least one whitespace character, then all of them). -/
def takeWs1 : Str → Option Str
  | [] => none
  | c :: cs => if isWsChar c then some (cs.dropWhile isWsChar) else none

/-- A word character of the regex class `\w`. -/
def isWordChar (c : Char) : Bool :=
  ('a' ≤ c && c ≤ 'z') || ('A' ≤ c && c ≤ 'Z') || isDigitChar c || c = '_'

/-- Consume `(\w+)` (greedy, at least one character). -/
def takeWord1 (s : Str) : Option (Str × Str) :=
  match s.takeWhile isWordChar with
  | [] => none
  | w => some (w, s.dropWhile isWordChar)

/-- Consume `([^)]+)\)`: the non-empty text up to the next `)`, then the `)`. -/
def takeUntilCloseParen1 (s : Str) : Option (Str × Str) :=
  match s.takeWhile (fun x => x ≠ ')') with
  | [] => none
  | w =>
    match s.dropWhile (fun x => x ≠ ')') with
    | ')' :: r => some (w, r)
    | _ => none

/-- One anchored attempt of the regex
`/INSERT\s+INTO\s+(\w+)\s*\(([^)]+)\)\s*VALUES\s*(.+)/is` at the start of `s`
(each sub-pattern is deterministic here, so greedy matching needs no
backtracking).  Returns the three captures (table, columns text, VALUES tail). -/
def tryMatchInsertAt (s : Str) : Option (Str × Str × Str) :=
  (matchCI "insert".data s).bind fun s1 =>
  (takeWs1 s1).bind fun s2 =>
  (matchCI "into".data s2).bind fun s3 =>
  (takeWs1 s3).bind fun s4 =>
  (takeWord1 s4).bind fun ts =>
  match ts.2.dropWhile isWsChar with
  | '(' :: s7 =>
    (takeUntilCloseParen1 s7).bind fun cs =>
    (matchCI "values".data (cs.2.dropWhile isWsChar)).bind fun s10 =>
    match s10.dropWhile isWsChar with
    | [] => none
    | tail => some (ts.1, cs.1, tail)
  | _ => none

/-- The unanchored `statement.match(...)` search: try every start position in
order, returning the first match. -/
def matchInsertRegex : Str → Option (Str × Str × Str)
  | [] => none
  | c :: rest =>
    match tryMatchInsertAt (c :: rest) with
    | some r => some r
    | none => matchInsertRegex rest

/-- The `col.trim().replace(/['"]/g, '')`: strip every quote character. -/
def stripQuoteChars (s : Str) : Str := s.filter (fun c => ¬(c = sqc ∨ c = dqc))

/-- The `handleColumnCountMismatchError` of `sqlParser.ts`: when the AST parser
rejects an INSERT with a column/value count mismatch, re-derive the model
lexically.  The error-message argument is carried but (as in the code) unused.
The code's surrounding `try/catch` has no effect here since nothing throws. -/
def handleColumnCountMismatchError (statement : Str) (_errorMessage : Str) :
    Option ParsedStatement :=
  match matchInsertRegex statement with
  | none => none
  | some (tableName, columnsStr, valuesStr) =>
    let columns := (splitOnChar ',' columnsStr).map (fun col => stripQuoteChars (trimStr col))
    let values := extractValuesFromString valuesStr
    let validatedValues := validateAndFixInsertData columns values
    some { type := .insert, tableName := some tableName, columns := some columns,
           values := some validatedValues }

/-! ## The AST-to-model extractor of `sqlParser.ts` -/

/-- The `extractValue` of `sqlParser.ts` (the value normalizer).  The code pushes
exactly one scalar per literal node onto the row; this returns that scalar. -/
def extractValue1 (val : Js) : Js :=
  match val with
  | .null => .null
  | .undefined => .null
  | v =>
    if jsGet v "type" = .str "bool".data then
      .bool (jsGet v "value" = .bool true ∨ jsGet v "value" = .str "true".data ∨
             jsGet v "value" = .str "TRUE".data ∨ jsGet v "value" = .num 1)
    else if jsGet v "value" ≠ .undefined then jsGet v "value"
    else if jsGet v "type" = .str "single_quote_string".data ∨
            jsGet v "type" = .str "double_quote_string".data then
      .str []
    else if jsGet v "type" = .str "number".data then .undefined
    else if jsGet v "type" = .str "null".data then .null
    else match v with
      | .str s => .str s
      | .num n => .num n
      | .bool b => .bool b
      | other => .str (jsToString other)

/-- The four row-group shapes normalized by `parseInsertStatement`: a `value`
array, an `expr` array, a bare array, or an `expr_list` wrapper. -/
def rowOfValueSet (valueSet : Js) : List Js :=
  if (jsGet valueSet "value").truthy ∧ (jsGet valueSet "value").isArr then
    (jsGet valueSet "value").arrElems.map extractValue1
  else if (jsGet valueSet "expr").truthy ∧ (jsGet valueSet "expr").isArr then
    (jsGet valueSet "expr").arrElems.map extractValue1
  else if valueSet.isArr then valueSet.arrElems.map extractValue1
  else if jsGet valueSet "type" = .str "expr_list".data ∧ (jsGet valueSet "value").truthy then
    (jsGet valueSet "value").arrElems.map extractValue1
  else []

/-- Fold a list of row-groups, keeping only non-empty extracted rows
(`if (row.length > 0) values.push(row)` in the code). -/
def rowsOfValueSets (sets : List Js) : List (List Js) :=
  sets.foldl (fun acc valueSet =>
    let row := rowOfValueSet valueSet
    if row ≠ [] then acc ++ [row] else acc) []

/-- The VALUES-clause normalization of `parseInsertStatement`: `ast.values` may
be an array of row-groups, a `{type: 'values', values: [...]}` wrapper, or an
old-style `{value: [...]}` object. -/
def parseInsertValues (vs : Js) : List (List Js) :=
  if vs.truthy = false then []
  else
    match vs with
    | .arr l => rowsOfValueSets l.toList
    | single =>
      if jsGet single "type" = .str "values".data ∧ (jsGet single "values").truthy ∧
         (jsGet single "values").isArr then
        rowsOfValueSets (jsGet single "values").arrElems
      else if (jsGet single "value").truthy ∧ (jsGet single "value").isArr then
        let row := (jsGet single "value").arrElems.map extractValue1
        if row ≠ [] then [row] else []
      else []

/-- The column-list extraction of `parseInsertStatement`: bare strings and
`{column: …}` objects (the latter kept only when the `column` field is truthy). -/
def parseInsertColumns (cols : Js) : List Str :=
  if cols.truthy = false then []
  else
    match cols with
    | .arr l =>
      l.toList.foldl (fun acc col =>
        match col with
        | .str s => acc ++ [s]
        | _ => if (jsGet col "column").truthy then acc ++ [jsToString (jsGet col "column")]
               else acc) []
    | _ => []

/-- The table-name normalization of `parseInsertStatement` (list, bare-string
and object forms). -/
def parseInsertTable (t : Js) : Str :=
  if t.truthy = false then []
  else
    match t with
    | .arr l => jsOrEmptyStr (jsGet (jsIndex0 (.arr l)) "table")
    | .str s => s
    | other => jsOrEmptyStr (jsGet other "table")

/-- The table-name normalization of `parseUpdateStatement` (list and object
forms only — no bare-string case). -/
def parseTablePlain (t : Js) : Str :=
  if t.truthy = false then []
  else
    match t with
    | .arr l => jsOrEmptyStr (jsGet (jsIndex0 (.arr l)) "table")
    | other => jsOrEmptyStr (jsGet other "table")

/-- The FROM-clause table extraction shared by `parseSelectStatement` and
`parseDeleteStatement`. -/
def parseFromTable (f : Js) : Str :=
  if f.truthy = false then []
  else
    match f with
    | .arr l => jsOrEmptyStr (jsGet (jsIndex0 (.arr l)) "table")
    | other => jsOrEmptyStr (jsGet other "table")

/-- The `parseInsertStatement` of `sqlParser.ts`.  Extracted rows always pass
through `validateAndFixInsertData` before being stored in the model. -/
def parseInsertStatement (ast : Js) : ParsedStatement :=
  let tableName := parseInsertTable (jsGet ast "table")
  let columns := parseInsertColumns (jsGet ast "columns")
  let values := parseInsertValues (jsGet ast "values")
  { type := .insert, tableName := some tableName, columns := some columns,
    values := some (validateAndFixInsertData columns values) }

/-- One projection entry of `parseSelectStatement`: explicit column name, then
`column_ref`, then alias, then the literal `*`. -/
def selectColumnName (col : Js) : Str :=
  if (jsGet col "expr").truthy ∧ (jsGet (jsGet col "expr") "column").truthy then
    jsToString (jsGet (jsGet col "expr") "column")
  else if (jsGet col "expr").truthy ∧ jsGet (jsGet col "expr") "type" = .str "column_ref".data then
    jsToString (jsGet (jsGet col "expr") "column")
  else if (jsGet col "as").truthy then jsToString (jsGet col "as")
  else "*".data

/-- The `parseSelectStatement` of `sqlParser.ts`. -/
def parseSelectStatement (ast : Js) : ParsedStatement :=
  let columns :=
    if (jsGet ast "columns").truthy = false then []
    else (jsGet ast "columns").arrElems.map selectColumnName
  { type := .select, tableName := some (parseFromTable (jsGet ast "from")),
    columns := some columns }

/-- The SET-clause value of one `setItem`:
`setItem.value?.value !== undefined ? setItem.value.value : setItem.value`. -/
def updateSetValue (setItem : Js) : Js :=
  if jsGet (jsGet setItem "value") "value" ≠ .undefined then jsGet (jsGet setItem "value") "value"
  else jsGet setItem "value"

/-- The `parseUpdateStatement` of `sqlParser.ts`: SET entries become
`columns` (the target names) and `data` rows `[column, value]`. -/
def parseUpdateStatement (ast : Js) : ParsedStatement :=
  let setItems := if (jsGet ast "set").truthy = false then [] else (jsGet ast "set").arrElems
  let kept := setItems.filter (fun setItem => (jsGet setItem "column").truthy)
  { type := .update, tableName := some (parseTablePlain (jsGet ast "table")),
    columns := some (kept.map (fun setItem => jsToString (jsGet setItem "column"))),
    data := some (kept.map (fun setItem => [jsGet setItem "column", updateSetValue setItem])),
    whereClause := jsGet ast "where" }

/-- The `parseDeleteStatement` of `sqlParser.ts`. -/
def parseDeleteStatement (ast : Js) : ParsedStatement :=
  { type := .delete, tableName := some (parseFromTable (jsGet ast "from")),
    whereClause := jsGet ast "where" }

/-- The `parseAST` of `sqlParser.ts`: reject non-objects, then dispatch on the
lower-cased `ast.type`.  Any unrecognized kind becomes an Unknown statement
carrying the diagnostic row `['Type', <kind>]`.  A non-string, non-nullish
`ast.type` would make the code's `toLowerCase()` throw (caught upstream in
`parseStatement`, which yields `null`); that corner is `none` here. -/
def parseAST (ast : Js) : Option ParsedStatement :=
  match ast with
  | .arr _ | .obj _ =>
    match jsGet ast "type" with
    | .undefined => some { type := .unknown, data := some [[.str "Type".data, .str "unknown".data]] }
    | .null => some { type := .unknown, data := some [[.str "Type".data, .str "unknown".data]] }
    | .str s =>
      let t := lowerStr s
      if t = "select".data then some (parseSelectStatement ast)
      else if t = "insert".data then some (parseInsertStatement ast)
      else if t = "update".data then some (parseUpdateStatement ast)
      else if t = "delete".data then some (parseDeleteStatement ast)
      else some { type := .unknown,
                  data := some [[.str "Type".data,
                                 .str (if t = [] then "unknown".data else t)]] }
    | _ => none
  | _ => none

/-- The error message fragment `parseStatement` looks for before invoking the
fallback parser. -/
def mismatchPattern : Str :=
  "column count doesn".data ++ sqc :: "t match value count".data

/-- The `parseStatement` of `sqlParser.ts`: run the external AST parser; on an
array result process its first element; on a parse failure, invoke the fallback
lexical parser if the message mentions the column/value count mismatch, and
silently drop the statement (`null`) otherwise. -/
def parseStatement (astify : Str → Except Str Js) (statement : Str) :
    Option ParsedStatement :=
  match astify statement with
  | .ok ast =>
    match ast with
    | .arr l =>
      (match l.toList.head? with
       | some first => parseAST first
       | none => parseAST .undefined)
    | _ => parseAST ast
  | .error errorMessage =>
    if includesStr errorMessage mismatchPattern then
      handleColumnCountMismatchError statement errorMessage
    else none

/-- Scan for the closing `*/` of a block comment, returning the text after it. -/
def findBlockClose : Str → Option Str
  | [] => none
  | '*' :: '/' :: after => some after
  | _ :: t => findBlockClose t

/-- Strip `/* … */` block comments (non-greedy, as the regex
`/\/\*[\s\S]*?\*\//g`: an unterminated block comment is left in place).
Fueled scan; `removeBlockComments` supplies enough fuel. -/
def removeBlockCommentsAux : Nat → Str → Str
  | 0, s => s
  | _ + 1, [] => []
  | fuel + 1, c :: rest =>
    match c, rest with
    | '/', '*' :: rest2 =>
      match findBlockClose rest2 with
      | some after => removeBlockCommentsAux fuel after
      | none => c :: rest
    | _, _ => c :: removeBlockCommentsAux fuel rest

def removeBlockComments (s : Str) : Str := removeBlockCommentsAux s.length s

/-- Truncate one line at the first `--` (`line.indexOf('--')`). -/
def stripLineComment : Str → Str
  | [] => []
  | '-' :: '-' :: _ => []
  | c :: t => c :: stripLineComment t

/-- The `splitSQLStatements` of `sqlParser.ts`: strip block comments, strip line
comments per line, drop blank lines, re-join, split on `;`, trim, drop empties. -/
def splitSQLStatements (sql : Str) : List Str :=
  let cleanedSQL := removeBlockComments sql
  let cleanedLines := ((splitOnChar '\n' cleanedSQL).map stripLineComment).filter
    (fun line => trimStr line ≠ [])
  let rejoined := List.intercalate ['\n'] cleanedLines
  ((splitOnChar ';' rejoined).map trimStr).filter (fun stmt => stmt ≠ [])

/-- One iteration of `parseSQL`'s statement loop: skip blank fragments, push
the parsed statement when parsing yielded one. -/
def parseSQLStep (astify : Str → Except Str Js) (acc : List ParsedStatement)
    (statement : Str) : List ParsedStatement :=
  if trimStr statement = [] then acc
  else
    match parseStatement astify (trimStr statement) with
    | some parsed => acc ++ [parsed]
    | none => acc

/-- The `parseSQL` of `sqlParser.ts`: split the document, parse each non-blank
fragment, and collect the statements that parsed.  Nothing in the model can
throw, so the catch-branch (`success: false` with the raw text) is dead code
here; it is still honoured by consumers (see `generateSQLFromData`). -/
def parseSQL (astify : Str → Except Str Js) (sqlContent : Str) : ParsedSQLData :=
  { success := true,
    statements := (splitSQLStatements sqlContent).foldl (parseSQLStep astify) [],
    raw := sqlContent }

/-! ## The SQL regenerator of `sqlViewerProvider.ts` -/

/-- The quote-escaping in `_formatSQLValue`: `replace(/'/g, "''")`. -/
def escapeQuotes : Str → Str
  | [] => []
  | c :: t => if c = sqc then sqc :: sqc :: escapeQuotes t else c :: escapeQuotes t

/-- The `_formatSQLValue` of `sqlViewerProvider.ts`: render one scalar as a SQL
literal.  NULL for null/undefined; pass through already-quoted text (double
quotes converted to single quotes); NULL / TRUE / FALSE for the corresponding
literal texts; numeric text unquoted; anything else single-quoted with embedded
single quotes doubled. -/
def formatSQLValue (val : Js) : Str :=
  match val with
  | .null => "NULL".data
  | .undefined => "NULL".data
  | v =>
    let strVal := trimStr (jsToString v)
    if startsChar strVal sqc ∧ endsChar strVal sqc then strVal
    else if startsChar strVal dqc ∧ endsChar strVal dqc then
      sqc :: sliceOuter strVal ++ [sqc]
    else if lowerStr strVal = "null".data then "NULL".data
    else if lowerStr strVal = "true".data ∨ lowerStr strVal = "false".data then
      upperStr strVal
    else if isNumericStr strVal ∧ strVal ≠ [] then strVal
    else sqc :: escapeQuotes strVal ++ [sqc]

/-- One rendered row of an INSERT: `(<formatted values, comma-joined>)`. -/
def renderInsertRow (row : List Js) : Str :=
  '(' :: List.intercalate ", ".data (row.map formatSQLValue) ++ [')']

/-- One rendered SET clause entry: `<col> = <formatted value>` (the code
destructures `[col, val] = row`; a missing entry is `undefined`). -/
def renderSetEntry (row : List Js) : Str :=
  jsToString ((row.get? 0).getD .undefined) ++ " = ".data ++
    formatSQLValue ((row.get? 1).getD .undefined)

/-- The per-statement rendering of `_generateSQLFromData`: the `switch` body.
Delete and Unknown statements have no case and render to the empty string, as
do statements whose guard (`tableName && columns && values` etc.) fails —
note an empty `tableName` string is falsy while empty arrays are truthy. -/
def renderStatement (s : ParsedStatement) : Str :=
  match s.type with
  | .insert =>
    match s.tableName, s.columns, s.values with
    | some tn, some cols, some vals =>
      if tn = [] then []
      else "INSERT INTO ".data ++ tn ++ " (".data ++ List.intercalate ", ".data cols ++
           ") VALUES ".data ++ List.intercalate ", ".data (vals.map renderInsertRow) ++ [';']
    | _, _, _ => []
  | .update =>
    match s.tableName, s.data with
    | some tn, some rows =>
      if tn = [] then []
      else "UPDATE ".data ++ tn ++ " SET ".data ++
           List.intercalate ", ".data (rows.map renderSetEntry) ++ [';']
    | _, _ => []
  | .select =>
    match s.tableName, s.columns with
    | some tn, some cols =>
      if tn = [] then []
      else "SELECT ".data ++ List.intercalate ", ".data cols ++ " FROM ".data ++ tn ++ [';']
    | _, _ => []
  | .delete => []
  | .unknown => []

/-- The `_generateSQLFromData` of `sqlViewerProvider.ts`: on a failed parse return
the raw text unchanged; otherwise render every statement, drop the empty
renderings (`filter(sql => sql)`), and join with a newline (`join('\n')`). -/
def generateSQLFromData (data : ParsedSQLData) : Str :=
  if data.success = false then data.raw
  else List.intercalate ['\n'] ((data.statements.map renderStatement).filter (fun sql => sql ≠ []))

/-! ## The edit operations of `sqlViewerProvider.ts` -/

/-- JS `row[columnIndex] = value`: in-range assignment replaces; out-of-range
assignment extends the array, filling the gap with holes (`undefined`). -/
def setExtend (row : List Js) (ci : Nat) (v : Js) : List Js :=
  if ci < row.length then row.set ci v
  else row ++ List.replicate (ci - row.length) Js.undefined ++ [v]

/-- The per-statement mutation of `_handleCellEdit`: overwrite one scalar of an
Insert's `values` or an Update's `data`, guarded by the row's existence. -/
def cellEditOne (ri ci : Nat) (v : Js) (st : ParsedStatement) : ParsedStatement :=
  match st.type, st.values, st.data with
  | .insert, some vals, _ =>
    match vals.get? ri with
    | some row => { st with values := some (vals.set ri (setExtend row ci v)) }
    | none => st
  | .update, _, some rows =>
    match rows.get? ri with
    | some row => { st with data := some (rows.set ri (setExtend row ci v)) }
    | none => st
  | _, _, _ => st

/-- The per-statement mutation of `_handleAddRow`: append a row of empty
strings sized to the column count (Insert), or a `[firstColumn, '']` pair
(Update); a missing `values`/`data` array is created first. -/
def addRowOne (st : ParsedStatement) : ParsedStatement :=
  match st.type, st.columns with
  | .insert, some cols =>
    { st with values := some ((st.values.getD []) ++
        [List.replicate cols.length (Js.str [])]) }
  | .update, some cols =>
    { st with data := some ((st.data.getD []) ++
        [[Js.str (cols.head?.getD []), Js.str []]]) }
  | _, _ => st

/-- The per-statement mutation of `_handleDeleteRow`: `splice(rowIndex, 1)`. -/
def deleteRowOne (ri : Nat) (st : ParsedStatement) : ParsedStatement :=
  match st.type, st.values, st.data with
  | .insert, some vals, _ => { st with values := some (vals.eraseIdx ri) }
  | .update, _, some rows => { st with data := some (rows.eraseIdx ri) }
  | _, _, _ => st

/-- The `column${counter}` in `_handleAddColumn`. -/
def mkColName (k : Nat) : Str := "column".data ++ renderNat k

/-- The `while (columns.includes(newColumnName))` search of `_handleAddColumn`,
with explicit fuel (the fuel `columns.length + 1` used by `synthColumnName`
always reaches a free name, since the candidates are pairwise distinct). -/
def synthColumnNameAux (columns : List Str) : Nat → Nat → Str
  | counter, 0 => mkColName counter
  | counter, fuel + 1 =>
    if mkColName counter ∈ columns then synthColumnNameAux columns (counter + 1) fuel
    else mkColName counter

/-- The synthesized unique column name of `_handleAddColumn`: the first of
`column1`, `column2`, … not already present. -/
def synthColumnName (columns : List Str) : Str :=
  synthColumnNameAux columns 1 (columns.length + 1)

/-- The per-statement mutation of `_handleAddColumn`: append the synthesized
name and extend every existing row with an empty-string value. -/
def addColumnOne (st : ParsedStatement) : ParsedStatement :=
  match st.type, st.columns with
  | .insert, some cols =>
    { st with
      columns := some (cols ++ [synthColumnName cols])
      values := (match st.values with
        | some vals => some (vals.map (fun row => row ++ [Js.str []]))
        | none => none) }
  | _, _ => st

/-- The per-statement mutation of `_handleDeleteColumn`: remove the column name
and, from every row long enough, the corresponding field. -/
def deleteColumnOne (ci : Nat) (st : ParsedStatement) : ParsedStatement :=
  match st.type, st.columns with
  | .insert, some cols =>
    if ci < cols.length then
      { st with
        columns := some (cols.eraseIdx ci)
        values := (match st.values with
          | some vals => some (vals.map (fun row =>
              if ci < row.length then row.eraseIdx ci else row))
          | none => none) }
    else st
  | _, _ => st

/-- The per-statement mutation of `_handleEditColumnName`: rename in place. -/
def editColumnNameOne (ci : Nat) (newName : Str) (st : ParsedStatement) :
    ParsedStatement :=
  match st.type, st.columns with
  | .insert, some cols =>
    if ci < cols.length then { st with columns := some (cols.set ci newName) }
    else st
  | _, _ => st

/-- The shared skeleton of every `_handle*` edit operation in
`sqlViewerProvider.ts`: bail out (no write) when the parse failed or the target
statement is absent (`!parsedData.success || !parsedData.statements[i]`);
otherwise mutate the target statement in place and regenerate the whole
document.  `some text` models the `_updateSQLFile(newSQL)` write. -/
def editCore (f : ParsedStatement → ParsedStatement) (parsedData : ParsedSQLData)
    (statementIndex : Nat) : Option Str :=
  if parsedData.success = false then none
  else
    match parsedData.statements.get? statementIndex with
    | none => none
    | some st =>
      some (generateSQLFromData
        { parsedData with statements := parsedData.statements.set statementIndex (f st) })

/-- The `_handleCellEdit`: reparse the live document, mutate, regenerate. -/
def handleCellEdit (astify : Str → Except Str Js) (doc : Str)
    (si ri ci : Nat) (v : Js) : Option Str :=
  editCore (cellEditOne ri ci v) (parseSQL astify doc) si

/-- The `_handleAddRow`. -/
def handleAddRow (astify : Str → Except Str Js) (doc : Str) (si : Nat) : Option Str :=
  editCore addRowOne (parseSQL astify doc) si

/-- The `_handleDeleteRow`. -/
def handleDeleteRow (astify : Str → Except Str Js) (doc : Str) (si ri : Nat) : Option Str :=
  editCore (deleteRowOne ri) (parseSQL astify doc) si

/-- The `_handleAddColumn`. -/
def handleAddColumn (astify : Str → Except Str Js) (doc : Str) (si : Nat) : Option Str :=
  editCore addColumnOne (parseSQL astify doc) si

/-- The `_handleDeleteColumn`. -/
def handleDeleteColumn (astify : Str → Except Str Js) (doc : Str) (si ci : Nat) : Option Str :=
  editCore (deleteColumnOne ci) (parseSQL astify doc) si

/-- The `_handleEditColumnName`. -/
def handleEditColumnName (astify : Str → Except Str Js) (doc : Str) (si ci : Nat)
    (newName : Str) : Option Str :=
  editCore (editColumnNameOne ci newName) (parseSQL astify doc) si

/-! ## The webview message dispatch of `resolveWebviewView` -/

/-- The messages the webview sends to the host (`SQLViewer.tsx` posts all of
these, including `editWhere` from `handleEditWhere`). -/
inductive WebviewMessage where
  | updateSQL (sql : Str)
  | ready
  | cellEdit (statementIndex rowIndex columnIndex : Nat) (value : Js)
  | addRow (statementIndex : Nat)
  | deleteRow (statementIndex rowIndex : Nat)
  | addColumn (statementIndex : Nat)
  | deleteColumn (statementIndex columnIndex : Nat)
  | editColumnName (statementIndex columnIndex : Nat) (newName : Str)
  | editWhere (statementIndex : Nat) (whereClause : Str)
  deriving DecidableEq

/-- The host's observable reaction to one webview message: an optional document
write (`_updateSQLFile`) and the data messages posted back to the webview. -/
structure HostOutcome where
  write : Option Str := none
  posted : List ParsedSQLData := []
  deriving DecidableEq

/-- The `onDidReceiveMessage` switch of `resolveWebviewView` in
`sqlViewerProvider.ts`, over the current document text `doc`.  There is no
`case 'editWhere'` in the switch, so an `editWhere` message falls through and
nothing happens: no write, no validation, no reply. -/
def dispatchMessage (astify : Str → Except Str Js) (doc : Str) :
    WebviewMessage → HostOutcome
  | .updateSQL sql => { write := some sql }
  | .ready => { posted := [parseSQL astify doc] }
  | .cellEdit si ri ci v => { write := handleCellEdit astify doc si ri ci v }
  | .addRow si => { write := handleAddRow astify doc si }
  | .deleteRow si ri => { write := handleDeleteRow astify doc si ri }
  | .addColumn si => { write := handleAddColumn astify doc si }
  | .deleteColumn si ci => { write := handleDeleteColumn astify doc si ci }
  | .editColumnName si ci n => { write := handleEditColumnName astify doc si ci n }
  | .editWhere _ _ => {}

/-! ## Concrete inputs used to exercise the definitions -/

/-- The string `O'Brien`. -/
def obrien : Str := ['O', sqc, 'B', 'r', 'i', 'e', 'n']

/-- The string `O''Brien` (embedded quote doubled). -/
def obrienEsc : Str := ['O', sqc, sqc, 'B', 'r', 'i', 'e', 'n']

/-- The row text `'a,b', 2, 'c''d'`. -/
def quoteSplitInput : Str :=
  [sqc, 'a', ',', 'b', sqc] ++ ", 2, ".data ++ [sqc, 'c', sqc, sqc, 'd', sqc]

/-- The `INSERT INTO t (a,b) VALUES (1,'x','y')` — three values, two columns. -/
def mismatchStmtA : Str :=
  "INSERT INTO t (a,b) VALUES (1,".data ++ [sqc, 'x', sqc, ',', sqc, 'y', sqc, ')']

/-- The `INSERT INTO t (a,b,c) VALUES (1,'x')` — two values, three columns. -/
def mismatchStmtB : Str :=
  "INSERT INTO t (a,b,c) VALUES (1,".data ++ [sqc, 'x', sqc, ')']

/-- A sample shape-1 INSERT syntax tree as the AST Adapter returns it. -/
def insertAstEx : Js :=
  .obj (.cons "type" (.str "insert".data)
    (.cons "table" (.str "users".data)
    (.cons "columns" (.arr (.cons (.str "name".data) (.cons (.str "age".data) .nil)))
    (.cons "values" (.arr (.cons (.obj (.cons "value" (.arr
        (.cons (.obj (.cons "value" (.str "Al".data) .nil))
        (.cons (.obj (.cons "value" (.num 30) .nil)) .nil))) .nil)) .nil))
    .nil))))

/-- An AST parser stub that always fails with a non-mismatch message. -/
def astifyFailA : Str → Except Str Js := fun _ => .error "Unexpected token".data

/-- A one-statement document. -/
def sqlDocA : Str := "SELECT a FROM t".data

def selectStmtA : ParsedStatement :=
  { type := .select, tableName := some "t".data, columns := some ["a".data] }

def selectStmtB : ParsedStatement :=
  { type := .select, tableName := some "u".data, columns := some ["b".data] }

def deleteStmtEx : ParsedStatement :=
  { type := .delete, tableName := some "t".data }

/-- An Insert model whose columns already contain `column1`. -/
def insertStmtEx : ParsedStatement :=
  { type := .insert, tableName := some "t".data,
    columns := some ["column1".data, "x".data],
    values := some [[Js.str "a".data, Js.str "b".data]] }

/-- A failed-parse document model (`success: false` with the raw text kept). -/
def failedParseEx : ParsedSQLData :=
  { success := false, statements := [], error := some "Unknown error".data,
    raw := "DELETE FROM t;".data }

/-- The document text used for the `editWhere` dispatch counterexample. -/
def whereDocEx : Str := "UPDATE users SET age = 1;".data

/-- The syntactically invalid WHERE text `age >`. -/
def whereBadEx : Str := "age >".data

/-! ## Basic lemmas: digits, decimal rendering, trimming -/

theorem charDigit_digitChar {d : Nat} (h : d < 10) : charDigit (digitChar d) = d := by
  interval_cases d <;> rfl

theorem digitChar_mem (d : Nat) : digitChar d ∈ digitChars := by
  unfold digitChar
  split <;> decide

theorem digitChars_facts : ∀ c ∈ digitChars,
    isWsChar c = false ∧ toLowerChar c = c ∧ isDigitChar c = true ∧
    c ≠ sqc ∧ c ≠ dqc ∧ c ≠ '-' ∧ toLowerChar c ≠ 'n' ∧ toLowerChar c ≠ 't' ∧
    toLowerChar c ≠ 'f' := by decide

theorem parse_append_digit (l : Str) (c : Char) :
    parseNatDigits (l ++ [c]) = parseNatDigits l * 10 + charDigit c := by
  simp [parseNatDigits, List.foldl_append]

theorem renderNatAux_spec : ∀ fuel n, n ≤ fuel →
    parseNatDigits (renderNatAux (fuel + 1) n) = n ∧
    renderNatAux (fuel + 1) n ≠ [] ∧
    ∀ c ∈ renderNatAux (fuel + 1) n, c ∈ digitChars := by
  intro fuel
  induction fuel with
  | zero =>
    intro n hn
    interval_cases n
    refine ⟨by decide, by decide, by decide⟩
  | succ f ih =>
    intro n hn
    by_cases h10 : n < 10
    · refine ⟨?_, ?_, ?_⟩
      · show parseNatDigits (if n < 10 then [digitChar n] else _) = n
        rw [if_pos h10]
        show 0 * 10 + charDigit (digitChar n) = n
        rw [charDigit_digitChar h10]
        omega
      · show (if n < 10 then [digitChar n] else _) ≠ []
        rw [if_pos h10]
        simp
      · show ∀ c ∈ (if n < 10 then [digitChar n] else _), c ∈ digitChars
        rw [if_pos h10]
        intro c hc
        rw [List.mem_singleton] at hc
        exact hc ▸ digitChar_mem n
    · have hpos : 0 < n := by omega
      have hdiv : n / 10 < n := Nat.div_lt_self hpos (by omega)
      have hih := ih (n / 10) (by omega)
      refine ⟨?_, ?_, ?_⟩
      · show parseNatDigits (if n < 10 then [digitChar n]
          else renderNatAux (f + 1) (n / 10) ++ [digitChar (n % 10)]) = n
        rw [if_neg h10, parse_append_digit, hih.1, charDigit_digitChar (Nat.mod_lt n (by omega))]
        omega
      · show (if n < 10 then [digitChar n]
          else renderNatAux (f + 1) (n / 10) ++ [digitChar (n % 10)]) ≠ []
        rw [if_neg h10]
        simp
      · show ∀ c ∈ (if n < 10 then [digitChar n]
          else renderNatAux (f + 1) (n / 10) ++ [digitChar (n % 10)]), c ∈ digitChars
        rw [if_neg h10]
        intro c hc
        rcases List.mem_append.mp hc with h | h
        · exact hih.2.2 c h
        · rw [List.mem_singleton] at h
          exact h ▸ digitChar_mem _

theorem parseNat_renderNat (n : Nat) : parseNatDigits (renderNat n) = n :=
  (renderNatAux_spec n n le_rfl).1

theorem renderNat_ne_nil (n : Nat) : renderNat n ≠ [] :=
  (renderNatAux_spec n n le_rfl).2.1

theorem renderNat_digits (n : Nat) : ∀ c ∈ renderNat n, c ∈ digitChars :=
  (renderNatAux_spec n n le_rfl).2.2

theorem renderNat_inj {a b : Nat} (h : renderNat a = renderNat b) : a = b := by
  have := parseNat_renderNat a
  rw [h, parseNat_renderNat] at this
  omega

/-- Decomposition of `renderInt`: a sign-or-digit head followed by digits. -/
theorem renderInt_decomp (i : Int) : ∃ c cs, renderInt i = c :: cs ∧
    (c = '-' ∨ c ∈ digitChars) ∧ ∀ x ∈ cs, x ∈ digitChars := by
  unfold renderInt
  by_cases hi : i < 0
  · rw [if_pos hi]
    exact ⟨'-', renderNat i.natAbs, rfl, Or.inl rfl, renderNat_digits _⟩
  · rw [if_neg hi]
    obtain ⟨c, cs, hc⟩ := List.exists_cons_of_ne_nil (renderNat_ne_nil i.toNat)
    refine ⟨c, cs, hc, Or.inr ?_, fun x hx => ?_⟩
    · exact renderNat_digits _ c (hc ▸ List.mem_cons_self c cs)
    · exact renderNat_digits _ x (hc ▸ List.mem_cons_of_mem c hx)

theorem renderInt_all_nonws (i : Int) : ∀ c ∈ renderInt i, isWsChar c = false := by
  obtain ⟨c, cs, hc, hcd, hcs⟩ := renderInt_decomp i
  rw [hc]
  intro x hx
  rcases List.mem_cons.mp hx with h | h
  · subst h
    rcases hcd with h | h
    · subst h; decide
    · exact (digitChars_facts x h).1
  · exact (digitChars_facts x (hcs x h)).1

theorem trimStr_eq_rdrop (s : Str) :
    trimStr s = List.rdropWhile isWsChar (s.dropWhile isWsChar) := rfl

theorem trim_of_all_nonws (l : Str) (h : ∀ c ∈ l, isWsChar c = false) : trimStr l = l := by
  rw [trimStr_eq_rdrop]
  have h1 : l.dropWhile isWsChar = l := by
    rw [List.dropWhile_eq_self_iff]
    intro hl
    have hm := h _ (List.getElem_mem hl)
    simp only [List.get_eq_getElem]
    simp [hm]
  rw [h1, List.rdropWhile_eq_self_iff]
  intro hl
  have hm := h _ (List.getLast_mem hl)
  simp [hm]

theorem trim_renderInt (i : Int) : trimStr (renderInt i) = renderInt i :=
  trim_of_all_nonws _ (renderInt_all_nonws i)

theorem jsNumberParse_renderInt (i : Int) : jsNumberParse (renderInt i) = some i := by
  unfold jsNumberParse
  rw [trim_renderInt]
  unfold renderInt
  by_cases hi : i < 0
  · rw [if_pos hi]
    have hne := renderNat_ne_nil i.natAbs
    have hall : (renderNat i.natAbs).all isDigitChar = true := by
      rw [List.all_eq_true]
      exact fun x hx => (digitChars_facts x (renderNat_digits _ x hx)).2.2.1
    show (if ('-' : Char) = '-' then
        if renderNat i.natAbs ≠ [] ∧ (renderNat i.natAbs).all isDigitChar = true then
          some (-(parseNatDigits (renderNat i.natAbs) : Int))
        else none
      else if ('-' :: renderNat i.natAbs).all isDigitChar = true then
        some ((parseNatDigits ('-' :: renderNat i.natAbs) : Int))
      else none) = some i
    rw [if_pos rfl, if_pos ⟨hne, hall⟩, parseNat_renderNat]
    congr 1
    omega
  · rw [if_neg hi]
    obtain ⟨c, cs, hc⟩ := List.exists_cons_of_ne_nil (renderNat_ne_nil i.toNat)
    have hmem : ∀ x ∈ c :: cs, x ∈ digitChars := fun x hx => renderNat_digits _ x (hc ▸ hx)
    have hcne : c ≠ '-' := (digitChars_facts c (hmem c (List.mem_cons_self c cs))).2.2.2.2.2.1
    have hall : (c :: cs).all isDigitChar = true := by
      rw [List.all_eq_true]
      exact fun x hx => (digitChars_facts x (hmem x hx)).2.2.1
    rw [hc]
    show (if c = '-' then
        if cs ≠ [] ∧ cs.all isDigitChar = true then some (-(parseNatDigits cs : Int)) else none
      else if (c :: cs).all isDigitChar = true then some ((parseNatDigits (c :: cs) : Int))
      else none) = some i
    rw [if_neg hcne, if_pos hall, ← hc, parseNat_renderNat]
    congr 1
    omega

theorem isNumericStr_renderInt (i : Int) : isNumericStr (renderInt i) = true := by
  rw [isNumericStr, jsNumberParse_renderInt]
  rfl

theorem lowerStr_renderInt_ne (i : Int) : lowerStr (renderInt i) ≠ "null".data ∧
    lowerStr (renderInt i) ≠ "true".data ∧ lowerStr (renderInt i) ≠ "false".data := by
  obtain ⟨c, cs, hc, hcd, _⟩ := renderInt_decomp i
  have hlc : toLowerChar c ≠ 'n' ∧ toLowerChar c ≠ 't' ∧ toLowerChar c ≠ 'f' := by
    rcases hcd with h | h
    · subst h; exact ⟨by decide, by decide, by decide⟩
    · have hf := digitChars_facts c h
      exact ⟨hf.2.2.2.2.2.2.1, hf.2.2.2.2.2.2.2.1, hf.2.2.2.2.2.2.2.2⟩
  rw [hc]
  refine ⟨?_, ?_, ?_⟩ <;>
  · intro he
    simp only [lowerStr, List.map_cons, List.cons.injEq] at he
    first
    | exact hlc.1 he.1
    | exact hlc.2.1 he.1
    | exact hlc.2.2 he.1

theorem startsChar_renderInt (i : Int) : startsChar (renderInt i) sqc = false ∧
    startsChar (renderInt i) dqc = false := by
  obtain ⟨c, cs, hc, hcd, _⟩ := renderInt_decomp i
  have hq : c ≠ sqc ∧ c ≠ dqc := by
    rcases hcd with h | h
    · subst h; exact ⟨by decide, by decide⟩
    · have hf := digitChars_facts c h
      exact ⟨hf.2.2.2.1, hf.2.2.2.2.1⟩
  rw [hc]
  constructor <;> simp [startsChar, hq.1, hq.2]

theorem formatSQLValue_num (n : Int) : formatSQLValue (.num n) = renderInt n := by
  have hjs : jsToString (.num n) = renderInt n := rfl
  simp only [formatSQLValue, hjs, trim_renderInt]
  rw [if_neg (by simp [(startsChar_renderInt n).1]),
      if_neg (by simp [(startsChar_renderInt n).2]),
      if_neg (lowerStr_renderInt_ne n).1,
      if_neg (by
        intro h
        rcases h with h | h
        · exact (lowerStr_renderInt_ne n).2.1 h
        · exact (lowerStr_renderInt_ne n).2.2 h),
      if_pos ⟨isNumericStr_renderInt n, by
        obtain ⟨c, cs, hc, _, _⟩ := renderInt_decomp n
        rw [hc]; simp⟩]

theorem cleanValue_renderInt (n : Int) : cleanValue (renderInt n) = .num n := by
  obtain ⟨c, cs, hc, hcd, hcs⟩ := renderInt_decomp n
  unfold cleanValue
  rw [if_neg (hc ▸ List.cons_ne_nil c cs),
      if_neg (by
        intro h
        rcases h with ⟨h1, _⟩ | ⟨h1, _⟩
        · rw [(startsChar_renderInt n).1] at h1; exact Bool.noConfusion h1
        · rw [(startsChar_renderInt n).2] at h1; exact Bool.noConfusion h1),
      if_neg (lowerStr_renderInt_ne n).2.1,
      if_neg (lowerStr_renderInt_ne n).2.2,
      if_pos ⟨isNumericStr_renderInt n, by rw [trim_renderInt, hc]; exact fun h => List.noConfusion h⟩,
      jsNumberParse_renderInt]
  rfl

theorem cleanValue_format_num (n : Int) : cleanValue (formatSQLValue (.num n)) = .num n := by
  rw [formatSQLValue_num, cleanValue_renderInt]

theorem dropWhile_head_false {α : Type} {p : α → Bool} {l : List α} {c : α} {cs : List α}
    (h : l.dropWhile p = c :: cs) : p c = false := by
  have hne : l.dropWhile p ≠ [] := by rw [h]; exact List.cons_ne_nil _ _
  have h2 := List.head_dropWhile_not p l hne
  have h4 := List.head?_eq_head (l := l.dropWhile p) hne
  have h5 : (l.dropWhile p).head? = some c := by rw [h]; rfl
  have hc : c = (l.dropWhile p).head hne := Option.some.inj (h5 ▸ h4)
  rw [← hc] at h2
  simpa using h2

theorem trim_idem (s : Str) : trimStr (trimStr s) = trimStr s := by
  have h : (trimStr s).dropWhile isWsChar = trimStr s := by
    obtain ⟨t, ht⟩ := List.rdropWhile_prefix isWsChar (s.dropWhile isWsChar)
    cases htr : trimStr s with
    | nil => rfl
    | cons c cs =>
      rw [List.dropWhile_cons]
      have hA : s.dropWhile isWsChar = c :: (cs ++ t) := by
        rw [← ht]
        rw [trimStr_eq_rdrop] at htr
        rw [htr]
        simp
      simp [dropWhile_head_false hA]
  rw [trimStr_eq_rdrop (trimStr s), h]
  rw [trimStr_eq_rdrop s]
  exact List.rdropWhile_idempotent _ _

theorem splitSQL_mem (sql : Str) : ∀ s ∈ splitSQLStatements sql, trimStr s = s ∧ s ≠ [] := by
  intro s hs
  unfold splitSQLStatements at hs
  rw [List.mem_filter] at hs
  obtain ⟨hmem, hne⟩ := hs
  rw [List.mem_map] at hmem
  obtain ⟨x, _, hx⟩ := hmem
  refine ⟨?_, by simpa using hne⟩
  rw [← hx, trim_idem]

theorem foldl_parseSQLStep (astify : Str → Except Str Js) :
    ∀ (l : List Str) (acc : List ParsedStatement),
    l.foldl (parseSQLStep astify) acc
    = acc ++ l.filterMap (fun s =>
        if trimStr s = [] then none else parseStatement astify (trimStr s)) := by
  intro l
  induction l with
  | nil => intro acc; simp
  | cons a t ih =>
    intro acc
    simp only [List.foldl_cons, List.filterMap_cons]
    by_cases ha : trimStr a = []
    · rw [show parseSQLStep astify acc a = acc from by simp [parseSQLStep, ha], ih]
      simp [ha]
    · cases hp : parseStatement astify (trimStr a) with
      | some p =>
        rw [show parseSQLStep astify acc a = acc ++ [p] from by simp [parseSQLStep, ha, hp], ih]
        simp [ha, hp]
      | none =>
        rw [show parseSQLStep astify acc a = acc from by simp [parseSQLStep, ha, hp], ih]
        simp [ha, hp]

theorem parseSQL_statements (astify : Str → Except Str Js) (sql : Str) :
    (parseSQL astify sql).statements =
    (splitSQLStatements sql).filterMap (fun s =>
      if trimStr s = [] then none else parseStatement astify (trimStr s)) := by
  show (splitSQLStatements sql).foldl (parseSQLStep astify) [] = _
  rw [foldl_parseSQLStep]
  simp

theorem filterMap_drop_none {α β : Type} [DecidableEq α] (g : α → Option β) (a : α)
    (hga : g a = none) : ∀ l : List α, l.filterMap g = (l.filter (fun x => x ≠ a)).filterMap g := by
  intro l
  induction l with
  | nil => rfl
  | cons b t ih =>
    by_cases hb : b = a
    · subst hb
      simp [List.filterMap_cons, hga, ih]
    · simp [List.filterMap_cons, hb, ih]

theorem renderedFilter_eraseIdx :
    ∀ (l : List ParsedStatement) (i : Nat) (d : ParsedStatement),
    l.get? i = some d → renderStatement d = [] →
    (((l.eraseIdx i).map renderStatement).filter (fun sql => sql ≠ [])) =
    ((l.map renderStatement).filter (fun sql => sql ≠ [])) := by
  intro l
  induction l with
  | nil => intro i d hget _; simp at hget
  | cons a t ih =>
    intro i d hget hren
    cases i with
    | zero =>
      simp only [List.get?_cons_zero, Option.some.injEq] at hget
      subst hget
      simp [List.eraseIdx, hren]
    | succ j =>
      simp only [List.get?_cons_succ] at hget
      simp only [List.eraseIdx_cons_succ, List.map_cons, List.filter_cons]
      rw [ih j d hget hren]

theorem generate_eraseIdx (l : List ParsedStatement) (i : Nat) (d : ParsedStatement)
    (e : Option Str) (raw : Str) (hget : l.get? i = some d) (hren : renderStatement d = []) :
    generateSQLFromData ⟨true, l.eraseIdx i, e, raw⟩ = generateSQLFromData ⟨true, l, e, raw⟩ := by
  unfold generateSQLFromData
  simp only [Bool.true_eq_false, reduceIte]
  rw [renderedFilter_eraseIdx l i d hget hren]

theorem editCore_none_of_guard (f : ParsedStatement → ParsedStatement)
    (pd : ParsedSQLData) (si : Nat)
    (h : pd.success = false ∨ pd.statements.length ≤ si) : editCore f pd si = none := by
  unfold editCore
  rcases h with h | h
  · rw [if_pos h]
  · by_cases hs : pd.success = false
    · rw [if_pos hs]
    · rw [if_neg hs, List.get?_eq_none.mpr h]

theorem editCore_some (f : ParsedStatement → ParsedStatement) (pd : ParsedSQLData)
    (si : Nat) (out : Str) (h : editCore f pd si = some out) :
    ∃ st, pd.statements.get? si = some st ∧ pd.success = true ∧
      out = generateSQLFromData { pd with statements := pd.statements.set si (f st) } := by
  unfold editCore at h
  by_cases hs : pd.success = false
  · rw [if_pos hs] at h; exact absurd h (by simp)
  · rw [if_neg hs] at h
    cases hget : pd.statements.get? si with
    | none => rw [hget] at h; exact absurd h (by simp)
    | some st =>
      rw [hget] at h
      exact ⟨st, rfl, by revert hs; cases pd.success <;> simp, (Option.some.inj h).symm⟩

theorem mkColName_inj {a b : Nat} (h : mkColName a = mkColName b) : a = b := by
  unfold mkColName at h
  exact renderNat_inj (List.append_cancel_left h)

theorem exists_free_name (cols : List Str) :
    ∃ k, 1 ≤ k ∧ k ≤ cols.length + 1 ∧ mkColName k ∉ cols := by
  by_contra hcon
  push_neg at hcon
  have hinj : Function.Injective (fun i : Nat => mkColName (i + 1)) := by
    intro a b hab
    have := mkColName_inj hab
    omega
  have hnd : ((List.range (cols.length + 1)).map (fun i => mkColName (i + 1))).Nodup :=
    List.Nodup.map hinj (List.nodup_range _)
  have hsub : ∀ x ∈ (List.range (cols.length + 1)).map (fun i => mkColName (i + 1)),
      x ∈ cols := by
    intro x hx
    rw [List.mem_map] at hx
    obtain ⟨i, hi, rfl⟩ := hx
    rw [List.mem_range] at hi
    exact hcon (i + 1) (by omega) (by omega)
  have h1 : ((List.range (cols.length + 1)).map (fun i => mkColName (i + 1))).toFinset.card
      = cols.length + 1 := by
    rw [List.toFinset_card_of_nodup hnd]
    simp
  have h2 : ((List.range (cols.length + 1)).map (fun i => mkColName (i + 1))).toFinset
      ⊆ cols.toFinset := by
    intro x hx
    rw [List.mem_toFinset] at hx ⊢
    exact hsub x hx
  have h3 := Finset.card_le_card h2
  have h4 := cols.toFinset_card_le
  omega

theorem synthAux_spec (cols : List Str) :
    ∀ fuel counter, (∃ k, counter ≤ k ∧ k < counter + fuel + 1 ∧ mkColName k ∉ cols) →
    ∃ K, synthColumnNameAux cols counter fuel = mkColName K ∧ counter ≤ K ∧
      mkColName K ∉ cols ∧ ∀ j, counter ≤ j → j < K → mkColName j ∈ cols := by
  intro fuel
  induction fuel with
  | zero =>
    intro counter h
    obtain ⟨k, hk1, hk2, hk3⟩ := h
    have hke : k = counter := by omega
    subst hke
    exact ⟨k, rfl, le_rfl, hk3, fun j h1 h2 => absurd h2 (by omega)⟩
  | succ f ih =>
    intro counter h
    obtain ⟨k, hk1, hk2, hk3⟩ := h
    by_cases hmem : mkColName counter ∈ cols
    · have hkc : k ≠ counter := by
        intro he
        rw [he] at hk3
        exact hk3 hmem
      obtain ⟨K, hK1, hK2, hK3, hK4⟩ := ih (counter + 1) ⟨k, by omega, by omega, hk3⟩
      refine ⟨K, ?_, by omega, hK3, ?_⟩
      · show synthColumnNameAux cols counter (f + 1) = mkColName K
        unfold synthColumnNameAux
        rw [if_pos hmem]
        exact hK1
      · intro j hj1 hj2
        rcases Nat.eq_or_lt_of_le hj1 with he | hlt
        · exact he ▸ hmem
        · exact hK4 j (by omega) hj2
    · refine ⟨counter, ?_, le_rfl, hmem, fun j h1 h2 => absurd h2 (by omega)⟩
      show synthColumnNameAux cols counter (f + 1) = mkColName counter
      unfold synthColumnNameAux
      rw [if_neg hmem]

theorem synthColumnName_spec (cols : List Str) :
    ∃ K, synthColumnName cols = mkColName K ∧ 1 ≤ K ∧ mkColName K ∉ cols ∧
      ∀ j, 1 ≤ j → j < K → mkColName j ∈ cols := by
  obtain ⟨k, hk1, hk2, hk3⟩ := exists_free_name cols
  exact synthAux_spec cols (cols.length + 1) 1 ⟨k, hk1, by omega, hk3⟩

theorem validate_row_length (columns : List Str) (values : List (List Js)) :
    ∀ row ∈ validateAndFixInsertData columns values, row.length = columns.length := by
  intro row hrow
  unfold validateAndFixInsertData at hrow
  rw [List.mem_map] at hrow
  obtain ⟨r, _, hr⟩ := hrow
  subst hr
  by_cases h1 : r.length = columns.length
  · simp [h1]
  · by_cases h2 : r.length > columns.length
    · rw [if_neg h1, if_pos h2, List.length_take]
      omega
    · rw [if_neg h1, if_neg h2, List.length_append, List.length_replicate]
      omega

theorem validate_get (columns : List Str) (vals : List (List Js)) (i : Nat)
    (row : List Js) (h : vals.get? i = some row) :
    (validateAndFixInsertData columns vals).get? i = some (
      if row.length = columns.length then row
      else if row.length > columns.length then row.take columns.length
      else row ++ List.replicate (columns.length - row.length) (Js.str [])) := by
  unfold validateAndFixInsertData
  rw [List.get?_eq_getElem?] at h ⊢
  rw [List.getElem?_map, h]
  rfl

theorem get?_middle (pre post : List ParsedStatement) (a : ParsedStatement) :
    (pre ++ a :: post).get? pre.length = some a := by
  induction pre with
  | nil => rfl
  | cons b t ih => simpa using ih

theorem eraseIdx_middle (pre post : List ParsedStatement) (a : ParsedStatement) :
    (pre ++ a :: post).eraseIdx pre.length = pre ++ post := by
  induction pre with
  | nil => rfl
  | cons b t ih => simpa [List.eraseIdx_cons_succ] using ih

theorem intercalate_pair (sep a b : Str) : List.intercalate sep [a, b] = a ++ sep ++ b := by
  simp [List.intercalate, List.intersperse]

theorem renderStatement_dropped (d : ParsedStatement)
    (hd : d.type = .delete ∨ d.type = .unknown) : renderStatement d = [] := by
  rcases hd with h | h <;> simp [renderStatement, h]

/-- C1: every Insert model produced by either extraction path satisfies
`row.length = columns.length` for every row, after reconciliation. -/
theorem claim1_insert_row_width :
    (∀ (ast : Js) (cols : List Str) (vals : List (List Js)),
      (parseInsertStatement ast).columns = some cols →
      (parseInsertStatement ast).values = some vals →
      ∀ row ∈ vals, row.length = cols.length) ∧
    (∀ (stmt msg : Str) (ps : ParsedStatement) (cols : List Str) (vals : List (List Js)),
      handleColumnCountMismatchError stmt msg = some ps →
      ps.columns = some cols → ps.values = some vals →
      ∀ row ∈ vals, row.length = cols.length) := by
  constructor
  · intro ast cols vals hc hv
    have hc' : parseInsertColumns (jsGet ast "columns") = cols := Option.some.inj hc
    have hv' : validateAndFixInsertData (parseInsertColumns (jsGet ast "columns"))
        (parseInsertValues (jsGet ast "values")) = vals := Option.some.inj hv
    subst hc'
    subst hv'
    exact validate_row_length _ _
  · intro stmt msg ps cols vals hps hc hv
    unfold handleColumnCountMismatchError at hps
    cases hm : matchInsertRegex stmt with
    | none => rw [hm] at hps; exact absurd hps (by simp)
    | some r =>
      obtain ⟨tableName, columnsStr, valuesStr⟩ := r
      rw [hm] at hps
      have hps' := Option.some.inj hps
      subst hps'
      simp only [Option.some.injEq] at hc hv
      subst hc
      subst hv
      exact validate_row_length _ _

theorem claim1_insert_row_width_witness :
    ((parseInsertStatement insertAstEx).columns = some ["name".data, "age".data] ∧
      (parseInsertStatement insertAstEx).values = some [[Js.str "Al".data, Js.num 30]] ∧
      ∀ row ∈ [[Js.str "Al".data, Js.num 30]], row.length = ["name".data, "age".data].length) ∧
    (∃ ps, handleColumnCountMismatchError mismatchStmtA mismatchPattern = some ps ∧
      ps.columns = some ["a".data, "b".data] ∧ ps.values = some [[Js.num 1, Js.str "x".data]] ∧
      ∀ row ∈ [[Js.num 1, Js.str "x".data]], row.length = ["a".data, "b".data].length) := by
  constructor
  · exact ⟨by decide, by decide,
      claim1_insert_row_width.1 insertAstEx _ _ (by decide) (by decide)⟩
  · refine ⟨_, rfl, rfl, rfl, claim1_insert_row_width.2 mismatchStmtA mismatchPattern _ _ _ rfl rfl rfl⟩

/-- C2: the Row Reconciler keeps a row of matching width, truncates a long row
to the first `n` entries, and right-pads a short row with empty strings; on the
two fallback-parsed mismatch statements it yields `[1,'x']` and `[1,'x','']`. -/
theorem claim2_row_reconciler :
    (∀ (columns : List Str) (vals : List (List Js)) (i : Nat) (row : List Js),
      vals.get? i = some row →
      (validateAndFixInsertData columns vals).get? i = some (
        if row.length = columns.length then row
        else if row.length > columns.length then row.take columns.length
        else row ++ List.replicate (columns.length - row.length) (Js.str []))) ∧
    (∃ ps, handleColumnCountMismatchError mismatchStmtA mismatchPattern = some ps ∧
      ps.values = some [[Js.num 1, Js.str "x".data]]) ∧
    (∃ ps, handleColumnCountMismatchError mismatchStmtB mismatchPattern = some ps ∧
      ps.values = some [[Js.num 1, Js.str "x".data, Js.str []]]) := by
  refine ⟨validate_get, ⟨_, rfl, rfl⟩, ⟨_, rfl, rfl⟩⟩

theorem claim2_row_reconciler_witness :
    ([[Js.num 1, Js.str "x".data, Js.str "y".data]].get? 0
      = some [Js.num 1, Js.str "x".data, Js.str "y".data]) ∧
    (validateAndFixInsertData ["a".data, "b".data]
        [[Js.num 1, Js.str "x".data, Js.str "y".data]]).get? 0 = some (
      if ([Js.num 1, Js.str "x".data, Js.str "y".data] : List Js).length
          = (["a".data, "b".data] : List Str).length then
        [Js.num 1, Js.str "x".data, Js.str "y".data]
      else if ([Js.num 1, Js.str "x".data, Js.str "y".data] : List Js).length
          > (["a".data, "b".data] : List Str).length then
        [Js.num 1, Js.str "x".data, Js.str "y".data].take (["a".data, "b".data] : List Str).length
      else [Js.num 1, Js.str "x".data, Js.str "y".data] ++
        List.replicate ((["a".data, "b".data] : List Str).length
          - ([Js.num 1, Js.str "x".data, Js.str "y".data] : List Js).length) (Js.str [])) :=
  ⟨rfl, claim2_row_reconciler.1 ["a".data, "b".data] _ 0 _ rfl⟩

/-- C3, counterexample: the claim asserts `O'Brien` formats to `'O''Brien'` and
unquotes back to `O'Brien`; in the code `cleanValue` strips only the outer
quotes, so the round trip yields `O''Brien` — the doubled quote survives. -/
theorem claim3_counterexample :
    cleanValue (formatSQLValue (.str obrien)) = .str obrienEsc ∧
    Js.str obrienEsc ≠ .str obrien := by
  constructor
  · decide
  · decide

/-- C3, amended: the format/normalize round trip is the identity on Null,
Boolean and Number scalars; the String `O'Brien` formats to `'O''Brien'` but
unquoting (`cleanValue`) returns `O''Brien`, keeping the doubled quote. -/
theorem claim3_value_roundtrip :
    (∀ n : Int, cleanValue (formatSQLValue (.num n)) = .num n) ∧
    cleanValue (formatSQLValue .null) = .null ∧
    (∀ b : Bool, cleanValue (formatSQLValue (.bool b)) = .bool b) ∧
    formatSQLValue (.str obrien) = sqc :: obrienEsc ++ [sqc] ∧
    cleanValue (formatSQLValue (.str obrien)) = .str obrienEsc := by
  refine ⟨cleanValue_format_num, by decide, ?_, by decide, by decide⟩
  intro b
  cases b <;> decide

/-- C6, counterexample: the claim says the third field of `'a,b', 2, 'c''d'`
is the String `c'd`; the splitter keeps the doubled quote, yielding `c''d`. -/
theorem claim6_counterexample :
    splitValueString quoteSplitInput ≠
      [Js.str ['a', ',', 'b'], Js.num 2, Js.str ['c', sqc, 'd']] ∧
    splitValueString quoteSplitInput =
      [Js.str ['a', ',', 'b'], Js.num 2, Js.str ['c', sqc, sqc, 'd']] := by
  constructor
  · decide
  · decide

/-- C6, amended: the quote-aware splitter yields exactly three fields —
String `a,b`, Number `2`, String `c''d`: the doubled quote is treated as an
escaped quote for splitting (it does not end the string), but `cleanValue`
strips only the outer quotes and keeps it doubled. -/
theorem claim6_quote_split :
    splitValueString quoteSplitInput =
      [Js.str ['a', ',', 'b'], Js.num 2, Js.str ['c', sqc, sqc, 'd']] := by
  decide

/-- C4: Delete and Unknown statements render to nothing, the Regenerator's
output on any statement list equals its output with such a statement removed,
and every edit operation (whose per-statement mutations all fix Delete/Unknown
statements) therefore writes a document in which the Delete statement no longer
appears: the written text equals the regeneration of the mutated statement list
with the Delete statement erased. -/
theorem claim4_regenerator_drops_delete (pre post : List ParsedStatement)
    (d : ParsedStatement) (hd : d.type = .delete ∨ d.type = .unknown)
    (e : Option Str) (raw : Str) :
    renderStatement d = [] ∧
    generateSQLFromData ⟨true, pre ++ d :: post, e, raw⟩ =
      generateSQLFromData ⟨true, pre ++ post, e, raw⟩ ∧
    (∀ f : ParsedStatement → ParsedStatement,
      (∀ s, s.type = .delete ∨ s.type = .unknown → f s = s) →
      ∀ si out, editCore f ⟨true, pre ++ d :: post, e, raw⟩ si = some out →
      out = generateSQLFromData ⟨true,
        ((pre ++ d :: post).set si
          (f (((pre ++ d :: post).get? si).getD d))).eraseIdx pre.length, e, raw⟩) ∧
    (∀ ri ci v s, s.type = .delete ∨ s.type = .unknown → cellEditOne ri ci v s = s) ∧
    (∀ s, s.type = .delete ∨ s.type = .unknown → addRowOne s = s) ∧
    (∀ ri s, s.type = .delete ∨ s.type = .unknown → deleteRowOne ri s = s) ∧
    (∀ s, s.type = .delete ∨ s.type = .unknown → addColumnOne s = s) ∧
    (∀ ci s, s.type = .delete ∨ s.type = .unknown → deleteColumnOne ci s = s) ∧
    (∀ ci nn s, s.type = .delete ∨ s.type = .unknown → editColumnNameOne ci nn s = s) := by
  have hren := renderStatement_dropped d hd
  refine ⟨hren, ?_, ?_, ?_, ?_, ?_, ?_, ?_, ?_⟩
  · rw [← eraseIdx_middle pre post d]
    exact (generate_eraseIdx _ _ d e raw (get?_middle pre post d) hren).symm
  · intro f hf si out hco
    obtain ⟨st, hget, _, hout⟩ := editCore_some f _ si out hco
    have hgetD : (((pre ++ d :: post).get? si).getD d) = st := by
      rw [hget]
      rfl
    rw [hgetD, hout]
    have hMd : ((pre ++ d :: post).set si (f st)).get? pre.length = some d := by
      by_cases hsi : si = pre.length
      · subst hsi
        have hst : st = d := by
          rw [get?_middle pre post d] at hget
          exact (Option.some.inj hget).symm
        subst hst
        rw [hf st hd]
        obtain ⟨hlt, _⟩ := List.get?_eq_some.mp hget
        rw [List.get?_eq_getElem?, List.getElem?_set_eq_of_lt _ hlt]
      · rw [List.get?_eq_getElem?, List.getElem?_set_ne (fun he => hsi he),
          ← List.get?_eq_getElem?]
        exact get?_middle pre post d
    exact (generate_eraseIdx _ pre.length d e raw hMd hren).symm
  · intro ri ci v s hs
    rcases hs with h | h <;> simp [cellEditOne, h]
  · intro s hs
    rcases hs with h | h <;> simp [addRowOne, h]
  · intro ri s hs
    rcases hs with h | h <;> simp [deleteRowOne, h]
  · intro s hs
    rcases hs with h | h <;> simp [addColumnOne, h]
  · intro ci s hs
    rcases hs with h | h <;> simp [deleteColumnOne, h]
  · intro ci nn s hs
    rcases hs with h | h <;> simp [editColumnNameOne, h]

theorem claim4_regenerator_drops_delete_witness :
    (deleteStmtEx.type = .delete ∨ deleteStmtEx.type = .unknown) ∧
    renderStatement deleteStmtEx = [] ∧
    generateSQLFromData ⟨true, [selectStmtA] ++ deleteStmtEx :: [selectStmtB], none, "x".data⟩ =
      generateSQLFromData ⟨true, [selectStmtA] ++ [selectStmtB], none, "x".data⟩ :=
  have h := claim4_regenerator_drops_delete [selectStmtA] [selectStmtB] deleteStmtEx
    (Or.inl rfl) none "x".data
  ⟨Or.inl rfl, h.1, h.2.1⟩

/-- C5, counterexample: the claim says an `editWhere` request with invalid
WHERE text is validated through the AST Adapter and its failure is reported to
the caller.  The provider's message switch has no `editWhere` case at all: the
message produces no validation, no reply, and no write. -/
theorem claim5_counterexample :
    (dispatchMessage astifyFailA whereDocEx (.editWhere 0 whereBadEx)).posted = [] ∧
    (dispatchMessage astifyFailA whereDocEx (.editWhere 0 whereBadEx)).write = none := by
  constructor
  · rfl
  · rfl

/-- C5, amended: for every document and every `editWhere` request, the host
dispatch ignores the message entirely — the document is left byte-identical
(no write occurs) and nothing is posted back (no failure is reported and no
validation through the AST Adapter happens). -/
theorem claim5_editWhere_ignored (astify : Str → Except Str Js) (doc : Str)
    (si : Nat) (w : Str) :
    dispatchMessage astify doc (.editWhere si w) = { write := none, posted := [] } := rfl

/-- C7: when the AST Adapter fails on a fragment, the fallback lexical parser
runs exactly when the message mentions the column/value count mismatch;
any other failure contributes no statement — the document's statement list is
the one obtained with every such fragment discarded — and `parseSQL` still
reports success. -/
theorem claim7_parse_failure_handling (astify : Str → Except Str Js)
    (sql frag msg : Str) (hmem : frag ∈ splitSQLStatements sql)
    (hfail : astify frag = .error msg) :
    (includesStr msg mismatchPattern = true →
      parseStatement astify frag = handleColumnCountMismatchError frag msg) ∧
    (includesStr msg mismatchPattern = false → parseStatement astify frag = none) ∧
    (parseSQL astify sql).success = true ∧
    (includesStr msg mismatchPattern = false →
      (parseSQL astify sql).statements =
      ((splitSQLStatements sql).filter (fun s => s ≠ frag)).filterMap
        (fun s => if trimStr s = [] then none else parseStatement astify (trimStr s))) := by
  obtain ⟨htrim, hne⟩ := splitSQL_mem sql frag hmem
  have hps : ∀ b, includesStr msg mismatchPattern = b →
      parseStatement astify frag =
        (if b then handleColumnCountMismatchError frag msg else none) := by
    intro b hb
    unfold parseStatement
    rw [hfail]
    show (if includesStr msg mismatchPattern = true then
        handleColumnCountMismatchError frag msg
      else none) = _
    rw [hb]
  refine ⟨fun h => by simpa using hps true h, fun h => by simpa using hps false h, rfl, ?_⟩
  intro h
  rw [parseSQL_statements]
  refine filterMap_drop_none _ frag ?_ _
  rw [htrim, if_neg hne]
  simpa using hps false h

theorem claim7_parse_failure_handling_witness :
    (sqlDocA ∈ splitSQLStatements sqlDocA ∧
     astifyFailA sqlDocA = .error "Unexpected token".data) ∧
    (includesStr "Unexpected token".data mismatchPattern = false →
      parseStatement astifyFailA sqlDocA = none) ∧
    (parseSQL astifyFailA sqlDocA).success = true ∧
    (includesStr "Unexpected token".data mismatchPattern = false →
      (parseSQL astifyFailA sqlDocA).statements =
      ((splitSQLStatements sqlDocA).filter (fun s => s ≠ sqlDocA)).filterMap
        (fun s => if trimStr s = [] then none else parseStatement astifyFailA (trimStr s))) :=
  have h := claim7_parse_failure_handling astifyFailA sqlDocA sqlDocA
    "Unexpected token".data (by decide) rfl
  ⟨⟨by decide, rfl⟩, h.2.1, h.2.2.1, h.2.2.2⟩

/-- C8: on an Insert model, `addColumn` appends the first free synthesized name
`column<K>` (every earlier candidate is already a column), appends an
empty-string value to every row, and preserves the row-width invariant at the
new width; on columns `[column1, x]` the synthesized name is `column2`. -/
theorem claim8_addColumn (st : ParsedStatement) (cols : List Str)
    (vals : List (List Js)) (h1 : st.type = .insert) (h2 : st.columns = some cols)
    (h3 : st.values = some vals) (hw : ∀ r ∈ vals, r.length = cols.length) :
    (∃ K, 1 ≤ K ∧
      (addColumnOne st).columns = some (cols ++ [mkColName K]) ∧
      mkColName K ∉ cols ∧ ∀ j, 1 ≤ j → j < K → mkColName j ∈ cols) ∧
    (addColumnOne st).values = some (vals.map (fun row => row ++ [Js.str []])) ∧
    (∀ r ∈ vals.map (fun row => row ++ [Js.str []]), r.length = cols.length + 1) ∧
    synthColumnName ["column1".data, "x".data] = "column2".data := by
  obtain ⟨ty, tn, co, va, wc, da⟩ := st
  simp only at h1 h2 h3
  subst h1
  subst h2
  subst h3
  refine ⟨?_, ?_, ?_, by decide⟩
  · obtain ⟨K, hK1, hK2, hK3, hK4⟩ := synthColumnName_spec cols
    exact ⟨K, hK2, by simp [addColumnOne, hK1], hK3, hK4⟩
  · simp [addColumnOne]
  · intro r hr
    rw [List.mem_map] at hr
    obtain ⟨r0, hr0, hr0e⟩ := hr
    subst hr0e
    rw [List.length_append, hw r0 hr0]
    rfl

theorem claim8_addColumn_witness :
    (insertStmtEx.type = .insert ∧
     insertStmtEx.columns = some ["column1".data, "x".data] ∧
     insertStmtEx.values = some [[Js.str "a".data, Js.str "b".data]] ∧
     ∀ r ∈ [[Js.str "a".data, Js.str "b".data]],
       r.length = (["column1".data, "x".data] : List Str).length) ∧
    ((∃ K, 1 ≤ K ∧
      (addColumnOne insertStmtEx).columns = some (["column1".data, "x".data] ++ [mkColName K]) ∧
      mkColName K ∉ (["column1".data, "x".data] : List Str) ∧
      ∀ j, 1 ≤ j → j < K → mkColName j ∈ (["column1".data, "x".data] : List Str)) ∧
    (addColumnOne insertStmtEx).values =
      some ([[Js.str "a".data, Js.str "b".data]].map (fun row => row ++ [Js.str []])) ∧
    (∀ r ∈ [[Js.str "a".data, Js.str "b".data]].map (fun row => row ++ [Js.str []]),
      r.length = (["column1".data, "x".data] : List Str).length + 1) ∧
    synthColumnName ["column1".data, "x".data] = "column2".data) :=
  ⟨⟨rfl, rfl, rfl, by decide⟩,
   claim8_addColumn insertStmtEx ["column1".data, "x".data]
     [[Js.str "a".data, Js.str "b".data]] rfl rfl rfl (by decide)⟩

/-- C9, counterexample: the claim says consecutively rendered statements are
separated by a blank line; the code joins with a single `'\n'` (`join('\n')`),
so two rendered SELECTs are adjacent lines with no blank line between them. -/
theorem claim9_counterexample :
    generateSQLFromData ⟨true, [selectStmtA, selectStmtB], none, []⟩ ≠
      renderStatement selectStmtA ++ '\n' :: '\n' :: renderStatement selectStmtB ∧
    generateSQLFromData ⟨true, [selectStmtA, selectStmtB], none, []⟩ =
      renderStatement selectStmtA ++ '\n' :: renderStatement selectStmtB := by
  constructor
  · decide
  · decide

/-- C9, amended: statements that render to the empty string are dropped from
the Regenerator's output (they contribute no separator), and two consecutively
rendered statements are separated by a single newline, not a blank line. -/
theorem claim9_join_newline :
    (∀ (e : Option Str) (raw : Str) (pre post : List ParsedStatement)
      (s : ParsedStatement), renderStatement s = [] →
      generateSQLFromData ⟨true, pre ++ s :: post, e, raw⟩ =
        generateSQLFromData ⟨true, pre ++ post, e, raw⟩) ∧
    (∀ (e : Option Str) (raw : Str) (s1 s2 : ParsedStatement),
      renderStatement s1 ≠ [] → renderStatement s2 ≠ [] →
      generateSQLFromData ⟨true, [s1, s2], e, raw⟩ =
        renderStatement s1 ++ '\n' :: renderStatement s2) := by
  constructor
  · intro e raw pre post s hren
    rw [← eraseIdx_middle pre post s]
    exact (generate_eraseIdx _ _ s e raw (get?_middle pre post s) hren).symm
  · intro e raw s1 s2 h1 h2
    show List.intercalate ['\n']
      (([s1, s2].map renderStatement).filter (fun sql => sql ≠ [])) = _
    simp only [List.map_cons, List.map_nil, List.filter_cons, List.filter_nil]
    rw [if_pos (by simpa using h1), if_pos (by simpa using h2), intercalate_pair]
    simp

/-- C10: a failed parse regenerates the raw text unchanged, and every edit
operation's handler bails out without writing when the parse failed or the
target statement index is absent. -/
theorem claim10_failed_parse_guard :
    (∀ d : ParsedSQLData, d.success = false → generateSQLFromData d = d.raw) ∧
    (∀ (pd : ParsedSQLData) (si ri ci : Nat) (v : Js) (nn : Str),
      pd.success = false ∨ pd.statements.length ≤ si →
      editCore (cellEditOne ri ci v) pd si = none ∧
      editCore addRowOne pd si = none ∧
      editCore (deleteRowOne ri) pd si = none ∧
      editCore addColumnOne pd si = none ∧
      editCore (deleteColumnOne ci) pd si = none ∧
      editCore (editColumnNameOne ci nn) pd si = none) := by
  constructor
  · intro d hd
    unfold generateSQLFromData
    rw [if_pos hd]
  · intro pd si ri ci v nn h
    exact ⟨editCore_none_of_guard _ pd si h, editCore_none_of_guard _ pd si h,
      editCore_none_of_guard _ pd si h, editCore_none_of_guard _ pd si h,
      editCore_none_of_guard _ pd si h, editCore_none_of_guard _ pd si h⟩

theorem claim10_failed_parse_guard_witness :
    (failedParseEx.success = false ∧
     generateSQLFromData failedParseEx = failedParseEx.raw) ∧
    (editCore (cellEditOne 0 0 (Js.str "v".data)) failedParseEx 0 = none ∧
     editCore addRowOne failedParseEx 0 = none ∧
     editCore (deleteRowOne 0) failedParseEx 0 = none ∧
     editCore addColumnOne failedParseEx 0 = none ∧
     editCore (deleteColumnOne 0) failedParseEx 0 = none ∧
     editCore (editColumnNameOne 0 "c".data) failedParseEx 0 = none) :=
  ⟨⟨rfl, claim10_failed_parse_guard.1 failedParseEx rfl⟩,
   claim10_failed_parse_guard.2 failedParseEx 0 0 0 (Js.str "v".data) "c".data (Or.inl rfl)⟩

theorem claim9_join_newline_witness :
    (renderStatement deleteStmtEx = [] ∧
     generateSQLFromData ⟨true, [] ++ deleteStmtEx :: [selectStmtA], none, "x".data⟩ =
       generateSQLFromData ⟨true, [] ++ [selectStmtA], none, "x".data⟩) ∧
    (renderStatement selectStmtA ≠ [] ∧ renderStatement selectStmtB ≠ [] ∧
     generateSQLFromData ⟨true, [selectStmtA, selectStmtB], none, "x".data⟩ =
       renderStatement selectStmtA ++ '\n' :: renderStatement selectStmtB) :=
  ⟨⟨by decide, claim9_join_newline.1 none "x".data [] [selectStmtA] deleteStmtEx (by decide)⟩,
   ⟨by decide, by decide,
    claim9_join_newline.2 none "x".data selectStmtA selectStmtB (by decide) (by decide)⟩⟩
